import Mathlib

/-!
# Verification of the CVAT → DeepLabCut conversion pipeline

Shallow embedding of `cvat_to_deeplabcut_pipeline.py` (and the range check of
`cvat_dlc_gui.py`).  Python floats are modelled as rationals, the Python dicts
built by `parse_cvat_xml` as association lists with overwrite-on-insert, and the
Python set `bodyparts_set` as a duplicate-free list.  File-system and decoder
effects are modelled explicitly: a video is its number of decodable frames, a
write that can fail is a `Bool`/`Option` parameter.
-/

/-- A `<box>` element of a CVAT track: frame number and the four edge
coordinates (`xtl`, `ytl`, `xbr`, `ybr`). -/
structure Box where
  frame : ℕ
  xtl : ℚ
  ytl : ℚ
  xbr : ℚ
  ybr : ℚ
deriving DecidableEq

/-- A `<points>` element of a CVAT track: frame number and the numeric
components of its `points` attribute after splitting on commas.  A missing or
empty attribute is a list with fewer than two components. -/
structure PointElt where
  frame : ℕ
  coords : List ℚ
deriving DecidableEq

/-- A `<track>` element: its label, its `<box>` children and its `<points>`
children, each list in document order (the source iterates
`track.findall('box')` first, then `track.findall('points')`). -/
structure Track where
  label : String
  boxes : List Box
  points : List PointElt
deriving DecidableEq

/-- One frame's annotation: the Python dict mapping keypoint name to an
`(x, y)` pair, as an association list whose insert overwrites. -/
abbrev FrameAnn := List (String × ℚ × ℚ)

/-- `self.annotations`: the dict from frame number to frame annotation. -/
abbrev AnnIndex := List (ℕ × FrameAnn)

/-- `if frame_num not in self.annotations: self.annotations[frame_num] = {}`
(pipeline lines 101-102 and 123-124). -/
def ensureFrame (a : AnnIndex) (f : ℕ) : AnnIndex :=
  if (a.lookup f).isSome then a else (f, []) :: a

/-- `self.annotations[frame_num][name] = (x, y)`: dict assignment, creating the
frame entry if needed and overwriting any previous binding of `name`. -/
def setKp (a : AnnIndex) (f : ℕ) (k : String) (v : ℚ × ℚ) : AnnIndex :=
  (ensureFrame a f).map fun p =>
    if p.1 = f then (p.1, (k, v) :: p.2.filter (fun q => q.1 != k)) else p

/-- Read one keypoint of one frame (`bodypart in frame_annotations` followed by
`frame_annotations[bodypart]`, pipeline lines 337-338). -/
def lookupKp (a : AnnIndex) (f : ℕ) (k : String) : Option (ℚ × ℚ) :=
  match a.lookup f with
  | some fa => fa.lookup k
  | none => none

/-- The frame numbers that are keys of the annotation index
(`self.annotations.keys()`). -/
def annKeys (a : AnnIndex) : List ℕ :=
  a.map Prod.fst

/-- Adding an element to a Python set modelled as a duplicate-free list:
a no-op when the element is already present. -/
def insertSet (x : String) (l : List String) : List String :=
  if x ∈ l then l else x :: l

/-- Parser state: `self.annotations` and `bodyparts_set` (pipeline
lines 87-88). -/
structure ParseState where
  ann : AnnIndex
  bodyparts_set : List String

/-- Processing of one `<box>` (pipeline lines 98-117): the derived keypoint is
the midpoint of the box, named `<label>_center`, and the name is added to the
bodyparts set. -/
def processBox (label : String) (st : ParseState) (b : Box) : ParseState :=
  { ann := setKp st.ann b.frame (label ++ "_center")
      ((b.xtl + b.xbr) / 2, (b.ytl + b.ybr) / 2)
    bodyparts_set := insertSet (label ++ "_center") st.bodyparts_set }

/-- Processing of one `<points>` element (pipeline lines 120-134): the frame
key is created unconditionally; a coordinate is stored under the track label,
and the label added to the bodyparts set, only when the `points` attribute
splits into at least two components. -/
def processPoint (label : String) (st : ParseState) (p : PointElt) : ParseState :=
  match p.coords with
  | x :: y :: _ =>
      { ann := setKp st.ann p.frame label (x, y)
        bodyparts_set := insertSet label st.bodyparts_set }
  | _ => { st with ann := ensureFrame st.ann p.frame }

/-- Processing of one `<track>` (pipeline lines 91-134): all its boxes, then
all its points elements. -/
def processTrack (st : ParseState) (t : Track) : ParseState :=
  t.points.foldl (processPoint t.label) (t.boxes.foldl (processBox t.label) st)

/-- The parsing loop of `parse_cvat_xml` over all tracks, starting from the
empty annotation dict and empty bodyparts set. -/
def parseDoc (tracks : List Track) : ParseState :=
  tracks.foldl processTrack ⟨[], []⟩

/-- `parse_cvat_xml` on a well-formed document (malformed XML / missing file is
outside the document model): returns `True`, `self.annotations` and
`self.bodyparts = sorted(list(bodyparts_set))` (pipeline lines 86-140) — the
lexicographically sorted arrangement of the set's elements. -/
def parse_cvat_xml (tracks : List Track) : Bool × AnnIndex × List String :=
  (true, (parseDoc tracks).ann,
    List.insertionSort (· ≤ ·) (parseDoc tracks).bodyparts_set)

/-- `f"frame_{n:04d}"`: decimal digits of `n` left-padded with zeros to at
least four characters. -/
def pad4 (n : ℕ) : String :=
  let s := toString n
  if s.length < 4 then String.mk (List.replicate (4 - s.length) '0') ++ s else s

/-- `f"frame_{frame_count:04d}.png"` — the filename rule used verbatim both by
`extract_frames` (line 256) and by `create_deeplabcut_csv` (line 328). -/
def frameFilename (n : ℕ) : String :=
  "frame_" ++ pad4 n ++ ".png"

/-- The decode loop of `extract_frames` (pipeline lines 249-267).  The first
argument of the recursion is the number of still-decodable frames (a failing
`cap.read()` is the `0` case), the second the running `frame_count`.  Returns
the list of frame indices written and the number of frames decoded. -/
def extractAux (s e : ℕ) : ℕ → ℕ → List ℕ × ℕ
  | 0, _ => ([], 0)
  | k + 1, c =>
    let hit : List ℕ := if s ≤ c ∧ c ≤ e then [c] else []
    if e < c + 1 then (hit, 1)
    else
      let r := extractAux s e k (c + 1)
      (hit ++ r.1, r.2 + 1)

/-- `extract_frames` on a video of `N` decodable frames and frame range
`(s, e)`: the image filenames written, and the number of frames decoded. -/
def extract_frames (N s e : ℕ) : List String × ℕ :=
  ((extractAux s e N 0).1.map frameFilename, (extractAux s e N 0).2)

/-- One data row of the CSV (pipeline lines 326-344):
`['labeled-data', video_name, image_name]` followed by the coordinate cells,
two per bodypart in vocabulary order, `none` modelling `np.nan`. -/
structure CsvRow where
  dir : String
  video : String
  image : String
  cells : List (Option ℚ)
deriving DecidableEq

/-- The full CSV content: the three header rows and the data rows. -/
structure CsvFile where
  scorerRow : List String
  bodypartsRow : List String
  coordsRow : List String
  dataRows : List CsvRow
deriving DecidableEq

/-- `sorted(self.annotations.keys())` filtered to `start <= f <= end`
(pipeline lines 300-304). -/
def validFrames (a : AnnIndex) (s e : ℕ) : List ℕ :=
  (List.insertionSort (· ≤ ·) (annKeys a)).filter
    (fun f => decide (s ≤ f) && decide (f ≤ e))

/-- The data row built for one valid frame (pipeline lines 326-344). -/
def rowOf (a : AnnIndex) (bodyparts : List String) (video : String) (f : ℕ) : CsvRow :=
  { dir := "labeled-data"
    video := video
    image := frameFilename f
    cells := (bodyparts.map fun bp =>
      match lookupKp a f bp with
      | some (x, y) => [some x, some y]
      | none => [none, none]).flatten }

/-- `create_deeplabcut_csv` (pipeline lines 277-363): `none` models the
`return False` on an empty `valid_frames` (line 306-308); otherwise the CSV is
written and its content returned. -/
def create_deeplabcut_csv (a : AnnIndex) (bodyparts : List String) (s e : ℕ)
    (video scorer : String) : Option CsvFile :=
  let vf := validFrames a s e
  if vf = [] then none
  else some
    { scorerRow := ["scorer", "", ""] ++ List.replicate (bodyparts.length * 2) scorer
      bodypartsRow := ["bodyparts", "", ""] ++ (bodyparts.map fun b => [b, b]).flatten
      coordsRow := ["coords", "", ""] ++ (List.replicate bodyparts.length ["x", "y"]).flatten
      dataRows := vf.map (rowOf a bodyparts video) }

/-- The sequence of strings `create_deeplabcut_config` writes to `config.yaml`
(pipeline lines 478-560), one list entry per `f.write` call, in order.  The
only run-dependent pieces are the project path, the video filename, the
bodyparts, the project name, the scorer — and `dateStr`, the
`datetime.now().strftime("%b%d")` of the run (line 387). -/
def create_deeplabcut_config (projectPath videoFilename : String)
    (bodyparts : List String) (projectName scorer dateStr : String) : List String :=
  ["# Project definitions (do not edit)\n",
   "Task: " ++ projectName ++ "\n",
   "scorer: " ++ scorer ++ "\n",
   "date: " ++ dateStr ++ "\n",
   "multianimalproject:\n",
   "identity:\n\n\n",
   "# Project path (change when moving around)\n",
   "project_path: " ++ projectPath ++ "\n\n\n",
   "# Default DeepLabCut engine to use for shuffle creation (either pytorch or tensorflow)\n",
   "engine: pytorch\n\n\n",
   "# Annotation data set configuration (and individual video cropping parameters)\n",
   "video_sets:\n",
   "  " ++ videoFilename ++ ":\n",
   "    crop: false\n\n",
   "# Other settings\n",
   "bodyparts:\n"]
  ++ (bodyparts.map fun b => "- " ++ b ++ "\n")
  ++ ["\n\n\n",
   "start: 0\n",
   "stop: 1\n",
   "numframes2pick: 20\n\n\n",
   "# Plotting configuration\n",
   "skeleton:\n",
   "  # Queen bee skeleton\n",
   "  - [Q_Head, Q_Neck]\n",
   "  - [Q_Neck, Q_Tail]\n",
   "  - [Q_Antenna_L1, Q_Antenna_L2]\n",
   "  - [Q_Antenna_L2, Q_Antenna_L3]\n",
   "  - [Q_Antenna_L3, Q_Head]\n",
   "  - [Q_Antenna_R1, Q_Antenna_R2]\n",
   "  - [Q_Antenna_R2, Q_Antenna_R3]\n",
   "  - [Q_Antenna_R3, Q_Head]\n",
   "\n",
   "  # Other bee skeleton (template individual)\n",
   "  - [O_Head, O_Neck]\n",
   "  - [O_Neck, O_Tail]\n",
   "  - [O_Antenna_L1, O_Antenna_L2]\n",
   "  - [O_Antenna_L2, O_Antenna_L3]\n",
   "  - [O_Antenna_L3, O_Head]\n",
   "  - [O_Antenna_R1, O_Antenna_R2]\n",
   "  - [O_Antenna_R2, O_Antenna_R3]\n",
   "  - [O_Antenna_R3, O_Head]\n",
   "skeleton_color: blue\n",
   "pcutoff: 0.4\n",
   "dotsize: 12\n",
   "alphavalue: 0.7\n",
   "colormap: plasma\n\n\n",
   "# Training,Evaluation and Analysis configuration\n",
   "TrainingFraction: [0.95]\n",
   "iteration: 0\n",
   "default_net_type: resnet_50\n",
   "default_augmenter: imgaug\n",
   "snapshotindex: -1\n",
   "detector_snapshotindex: -1\n",
   "batch_size: 8\n",
   "detector_batch_size: 1\n\n\n",
   "# Cropping Parameters (for analysis and outlier frame detection)\n",
   "cropping:\n",
   "#if cropping is true for analysis, then set the values here:\n",
   "x1:\n",
   "x2:\n",
   "y1:\n",
   "y2:\n\n\n",
   "# Refinement configuration (parameters from annotation dataset configuration also relevant in this stage)\n",
   "corner2move2:\n",
   "move2corner:\n\n\n",
   "# Conversion tables to fine-tune SuperAnimal weights\n",
   "SuperAnimalConversionTables:\n",
   "project_name: " ++ projectName ++ "\n"]

/-- The table and descriptor one run writes, as a function of its inputs and
of the run's formatted date. -/
def pipelineOutputs (a : AnnIndex) (bodyparts : List String) (s e : ℕ)
    (video scorer projectPath videoFilename projectName dateStr : String) :
    Option CsvFile × List String :=
  (create_deeplabcut_csv a bodyparts s e video scorer,
   create_deeplabcut_config projectPath videoFilename bodyparts projectName scorer dateStr)

/-- What `cv2.VideoCapture` reports for a video file: whether it opens, and the
`CAP_PROP_FRAME_COUNT` it reports when it does. -/
structure VideoFile where
  canOpen : Bool
  metaFrames : ℕ
deriving DecidableEq

/-- `get_video_info` (pipeline lines 142-180): fails exactly when the capture
does not open; otherwise returns the reported frame count.  There is no check
on the value of `total_frames`. -/
def get_video_info (v : VideoFile) : Option ℕ :=
  if v.canOpen then some v.metaFrames else none

/-- The acceptance test of the interactive prompt of
`interactive_frame_selection` under the "range" policy (pipeline line 207):
`0 <= start <= end <= max_frame` with `max_frame = total_frames - 1` in Python
integer arithmetic. -/
def interactive_range_ok (totalFrames : ℕ) (s e : ℤ) : Bool :=
  decide (0 ≤ s) && decide (s ≤ e) && decide (e ≤ (totalFrames : ℤ) - 1)

/-- The frame-range test of the GUI's `validate_inputs`
(cvat_dlc_gui.py lines 212-217): rejects exactly when
`start < 0 or end < start`; the probed total frame count is not consulted. -/
def gui_range_ok (s e : ℤ) : Bool :=
  !(decide (s < 0) || decide (e < s))

/-- How the external csv→h5 converter behaves on a given run. -/
inductive ConverterStatus
  | works
  | absent
  | interactivePrompt
  | raises
deriving DecidableEq

/-- `generate_h5_file` (pipeline lines 598-720): the conversion succeeding
returns True (line 636); `ImportError` returns True (line 716); the whole
fallback chain ending at the interactive prompt returns True (line 711); any
other exception returns True (line 720). -/
def generate_h5_file : ConverterStatus → Bool
  | .works => true
  | .absent => true
  | .interactivePrompt => true
  | .raises => true

/-- `create_dataset_summary` (pipeline lines 722-765): the body is a bare
`with open(...)` block with no exception handler, so a failing write raises
(modelled by `none`) instead of returning. -/
def create_dataset_summary (writeOk : Bool) : Option Unit :=
  if writeOk then some () else none

/-- How a call to `run_pipeline` ends: a returned boolean, or an exception
escaping it. -/
inductive RunResult
  | returned (success : Bool)
  | raised
deriving DecidableEq

/-- Observable trace of one `run_pipeline` call: its result, and whether the
CSV and the config file were written before it ended. -/
structure RunTrace where
  result : RunResult
  csvWritten : Bool
  configWritten : Bool
deriving DecidableEq

/-- The environment of one pipeline run: the parsed document, the video, the
frame range chosen in step 3, and the success of the modelled effects. -/
structure Env where
  tracks : List Track
  video : VideoFile
  frameRange : ℕ × ℕ
  copyOk : Bool
  h5 : ConverterStatus
  summaryWriteOk : Bool
  videoName : String
  scorer : String

/-- `run_pipeline` (pipeline lines 767-837).  XML parsing of a well-formed
document succeeds (step 1); probing fails only when the video does not open
(step 2); the frame range comes from step 3; extraction (step 4) re-opens the
same video, which at this point opens, and its image writes are assumed to
succeed; CSV creation (step 5) fails exactly when `valid_frames` is empty;
config write (step 6) succeeds; the video copy (step 7) may fail; the h5 step
(step 8) is called and its result discarded (line 816); the summary (step 9)
has no exception handler, so its failure raises out of `run_pipeline`. -/
def run_pipeline (env : Env) : RunTrace :=
  let parsed := parse_cvat_xml env.tracks
  match get_video_info env.video with
  | none => ⟨.returned false, false, false⟩
  | some _ =>
    match create_deeplabcut_csv parsed.2.1 parsed.2.2 env.frameRange.1 env.frameRange.2
        env.videoName env.scorer with
    | none => ⟨.returned false, false, false⟩
    | some _ =>
      if env.copyOk then
        let _h5ok := generate_h5_file env.h5
        match create_dataset_summary env.summaryWriteOk with
        | some _ => ⟨.returned true, true, true⟩
        | none => ⟨.raised, true, true⟩
      else ⟨.returned false, true, true⟩

/-! ## Extraction: the decode loop writes exactly the in-window decodable
frames and stops right after the window's end -/

theorem extractAux_fst (s e : ℕ) : ∀ (k c : ℕ),
    (extractAux s e k c).1
      = (List.range' c k).filter (fun i => decide (s ≤ i) && decide (i ≤ e))
  | 0, c => by simp [extractAux]
  | k + 1, c => by
    have ih := extractAux_fst s e k (c + 1)
    have hstep : (List.range' c (k + 1)).filter (fun i => decide (s ≤ i) && decide (i ≤ e))
        = (if s ≤ c ∧ c ≤ e then [c] else [])
            ++ (List.range' (c + 1) k).filter (fun i => decide (s ≤ i) && decide (i ≤ e)) := by
      rw [List.range'_succ, List.filter_cons]
      by_cases hsc : s ≤ c
      · by_cases hce : c ≤ e
        · simp [hsc, hce]
        · simp [hsc, hce]
      · simp [hsc]
    rw [hstep]
    by_cases h : e < c + 1
    · have hnil : (List.range' (c + 1) k).filter
          (fun i => decide (s ≤ i) && decide (i ≤ e)) = [] := by
        rw [List.filter_eq_nil_iff]
        intro i hi
        have h1 : c + 1 ≤ i := (List.mem_range'_1.mp hi).1
        simp only [Bool.and_eq_true, decide_eq_true_eq, not_and]
        omega
      simp [extractAux, h, hnil]
    · simp [extractAux, h, ih]

theorem extractAux_snd (s e : ℕ) : ∀ (k c : ℕ), c ≤ e →
    (extractAux s e k c).2 = min k (e + 1 - c)
  | 0, c, _ => by simp [extractAux]
  | k + 1, c, hc => by
    simp only [extractAux]
    by_cases h : e < c + 1
    · simp only [h, if_true]
      omega
    · have ih := extractAux_snd s e k (c + 1) (by omega)
      simp only [h, if_false]
      omega

theorem extract_frames_fst (N s e : ℕ) :
    (extract_frames N s e).1
      = ((List.range N).filter (fun i => decide (s ≤ i) && decide (i ≤ e))).map
          frameFilename := by
  rw [extract_frames, extractAux_fst, List.range_eq_range']

theorem extract_frames_snd (N s e : ℕ) :
    (extract_frames N s e).2 = min N (e + 1) := by
  rw [extract_frames]
  simpa using extractAux_snd s e N 0 (Nat.zero_le e)

/-- **C4** (confirmed).  For every frame window `[s, e]` and every video whose
decode yields `N` frames, `extract_frames` decodes sequentially from index 0
and writes exactly the files `frame_<i>.png` for the decodable indices
`s ≤ i ≤ e` (no file for any index outside the window), and it decodes only
`min N (e+1)` frames: it stops as soon as the running frame counter exceeds
`e` instead of draining the stream. -/
theorem c4_extraction (N s e : ℕ) :
    (extract_frames N s e).1
        = ((List.range N).filter (fun i => decide (s ≤ i) && decide (i ≤ e))).map
            frameFilename
      ∧ (extract_frames N s e).2 = min N (e + 1) :=
  ⟨extract_frames_fst N s e, extract_frames_snd N s e⟩

/-! ## The annotation index: key membership and distinctness -/

theorem lookup_isSome_iff (a : AnnIndex) (f : ℕ) :
    (a.lookup f).isSome ↔ f ∈ annKeys a := by
  induction a with
  | nil => simp [annKeys]
  | cons p l ih =>
    rcases p with ⟨k, fa⟩
    rw [List.lookup_cons]
    by_cases h : f = k
    · subst h
      simp [annKeys]
    · have hb : (f == k) = false := beq_false_of_ne h
      simp [hb, annKeys, ih, h]

theorem annKeys_ensureFrame (a : AnnIndex) (f : ℕ) :
    annKeys (ensureFrame a f)
      = if (a.lookup f).isSome then annKeys a else f :: annKeys a := by
  rw [ensureFrame]
  by_cases h : (a.lookup f).isSome <;> simp [h, annKeys]

theorem annKeys_setKp (a : AnnIndex) (f : ℕ) (k : String) (v : ℚ × ℚ) :
    annKeys (setKp a f k v) = annKeys (ensureFrame a f) := by
  rw [setKp, annKeys, annKeys, List.map_map]
  apply List.map_congr_left
  intro p _
  by_cases h : p.1 = f <;> simp [h]

theorem mem_annKeys_ensureFrame (a : AnnIndex) (f g : ℕ) :
    g ∈ annKeys (ensureFrame a f) ↔ g = f ∨ g ∈ annKeys a := by
  rw [annKeys_ensureFrame]
  by_cases h : (a.lookup f).isSome
  · rw [if_pos h, lookup_isSome_iff] at *
    constructor
    · exact Or.inr
    · rintro (rfl | hg)
      · exact h
      · exact hg
  · rw [if_neg h]
    exact List.mem_cons

theorem mem_annKeys_setKp (a : AnnIndex) (f g : ℕ) (k : String) (v : ℚ × ℚ) :
    g ∈ annKeys (setKp a f k v) ↔ g = f ∨ g ∈ annKeys a := by
  rw [annKeys_setKp]
  exact mem_annKeys_ensureFrame a f g

theorem nodup_annKeys_ensureFrame (a : AnnIndex) (f : ℕ)
    (h : (annKeys a).Nodup) : (annKeys (ensureFrame a f)).Nodup := by
  rw [annKeys_ensureFrame]
  by_cases hl : (a.lookup f).isSome
  · simpa [hl] using h
  · have : f ∉ annKeys a := fun hc => hl ((lookup_isSome_iff a f).mpr hc)
    simp [hl, h, this]

theorem nodup_annKeys_setKp (a : AnnIndex) (f : ℕ) (k : String) (v : ℚ × ℚ)
    (h : (annKeys a).Nodup) : (annKeys (setKp a f k v)).Nodup := by
  rw [annKeys_setKp]
  exact nodup_annKeys_ensureFrame a f h

/-- A property preserved by every step of a left fold is preserved by the
fold. -/
theorem foldl_preserves {α β : Type} (P : α → Prop) (g : α → β → α)
    (hg : ∀ st x, P st → P (g st x)) :
    ∀ (l : List β) (st : α), P st → P (l.foldl g st)
  | [], _, h => h
  | x :: l, st, h => foldl_preserves P g hg l (g st x) (hg st x h)

theorem nodup_annKeys_parseDoc (tracks : List Track) :
    (annKeys (parseDoc tracks).ann).Nodup := by
  have hbox : ∀ (L : String) (st : ParseState), (annKeys st.ann).Nodup →
      ∀ b, (annKeys (processBox L st b).ann).Nodup := by
    intro L st h b
    exact nodup_annKeys_setKp _ _ _ _ h
  have hpt : ∀ (L : String) (st : ParseState), (annKeys st.ann).Nodup →
      ∀ p, (annKeys (processPoint L st p).ann).Nodup := by
    intro L st h p
    rcases p with ⟨f, coords⟩
    match coords with
    | [] => exact nodup_annKeys_ensureFrame _ _ h
    | [x] => exact nodup_annKeys_ensureFrame _ _ h
    | x :: y :: tl => exact nodup_annKeys_setKp _ _ _ _ h
  have htrack : ∀ (st : ParseState) (t : Track), (annKeys st.ann).Nodup →
      (annKeys (processTrack st t).ann).Nodup := by
    intro st t h
    rw [processTrack]
    refine foldl_preserves (fun st : ParseState => (annKeys st.ann).Nodup) _ ?_ _ _ ?_
    · intro st p hp
      exact hpt t.label st hp p
    · refine foldl_preserves (fun st : ParseState => (annKeys st.ann).Nodup) _ ?_ _ _ h
      intro st b hb
      exact hbox t.label st hb b
  rw [parseDoc]
  refine foldl_preserves (fun st : ParseState => (annKeys st.ann).Nodup) _ ?_ _ _ ?_
  · intro st t h
    exact htrack st t h
  · simp [annKeys]

/-! ## Valid frames and the CSV table -/

theorem mem_validFrames (a : AnnIndex) (s e f : ℕ) :
    f ∈ validFrames a s e ↔ s ≤ f ∧ f ≤ e ∧ f ∈ annKeys a := by
  rw [validFrames]
  simp only [List.mem_filter, Bool.and_eq_true, decide_eq_true_eq]
  rw [(List.perm_insertionSort _ _).mem_iff]
  tauto

theorem nodup_validFrames (a : AnnIndex) (s e : ℕ) (h : (annKeys a).Nodup) :
    (validFrames a s e).Nodup := by
  rw [validFrames]
  exact ((List.perm_insertionSort _ _).nodup_iff.mpr h).filter _

theorem validFrames_eq_nil_iff (a : AnnIndex) (s e : ℕ) :
    validFrames a s e = [] ↔ ∀ f ∈ annKeys a, ¬(s ≤ f ∧ f ≤ e) := by
  rw [List.eq_nil_iff_forall_not_mem]
  constructor
  · intro h f hf hrange
    exact h f ((mem_validFrames a s e f).mpr ⟨hrange.1, hrange.2, hf⟩)
  · intro h f hf
    obtain ⟨h1, h2, h3⟩ := (mem_validFrames a s e f).mp hf
    exact h f h3 ⟨h1, h2⟩

theorem create_csv_eq_none_iff (a : AnnIndex) (bodyparts : List String) (s e : ℕ)
    (video scorer : String) :
    create_deeplabcut_csv a bodyparts s e video scorer = none
      ↔ validFrames a s e = [] := by
  rw [create_deeplabcut_csv]
  by_cases h : validFrames a s e = [] <;> simp [h]

theorem create_csv_dataRows (a : AnnIndex) (bodyparts : List String) (s e : ℕ)
    (video scorer : String) (cf : CsvFile)
    (h : create_deeplabcut_csv a bodyparts s e video scorer = some cf) :
    cf.dataRows = (validFrames a s e).map (rowOf a bodyparts video) := by
  simp only [create_deeplabcut_csv] at h
  by_cases hv : validFrames a s e = []
  · rw [if_pos hv] at h
    exact absurd h (by simp)
  · rw [if_neg hv] at h
    rw [← Option.some.inj h]

theorem run_pipeline_csv_none (env : Env)
    (hopen : env.video.canOpen = true)
    (hnone : create_deeplabcut_csv (parse_cvat_xml env.tracks).2.1
      (parse_cvat_xml env.tracks).2.2 env.frameRange.1 env.frameRange.2
      env.videoName env.scorer = none) :
    run_pipeline env = ⟨.returned false, false, false⟩ := by
  simp [run_pipeline, get_video_info, hopen, hnone]

/-- **C2** (corrected).  For every parsed document, vocabulary and window
`[s, e]`: the table has exactly one data row per frame index in `[s, e]` that
has an entry in the annotation index — `validFrames` is duplicate-free and
holds exactly those indices, and the data rows are its image of `rowOf` — the
CSV step fails exactly when no frame of the window has an entry, and in that
case the pipeline halts reporting failure before the descriptor is written.
(The claim's stronger condition "at least one non-empty keypoint entry" is
wrong: an entry with zero keypoints still produces a row, see the
counterexample.) -/
theorem c2_rows_per_annotated_frame (tracks : List Track) (s e : ℕ)
    (video scorer : String) :
    (validFrames (parse_cvat_xml tracks).2.1 s e).Nodup
    ∧ (∀ f : ℕ, f ∈ validFrames (parse_cvat_xml tracks).2.1 s e
        ↔ s ≤ f ∧ f ≤ e ∧ f ∈ annKeys (parse_cvat_xml tracks).2.1)
    ∧ (∀ cf : CsvFile,
        create_deeplabcut_csv (parse_cvat_xml tracks).2.1 (parse_cvat_xml tracks).2.2
            s e video scorer = some cf →
          cf.dataRows = (validFrames (parse_cvat_xml tracks).2.1 s e).map
            (rowOf (parse_cvat_xml tracks).2.1 (parse_cvat_xml tracks).2.2 video))
    ∧ (create_deeplabcut_csv (parse_cvat_xml tracks).2.1 (parse_cvat_xml tracks).2.2
          s e video scorer = none
        ↔ ∀ f ∈ annKeys (parse_cvat_xml tracks).2.1, ¬(s ≤ f ∧ f ≤ e))
    ∧ (∀ (mf : ℕ) (copyOk : Bool) (h5 : ConverterStatus) (sWk : Bool),
        create_deeplabcut_csv (parse_cvat_xml tracks).2.1 (parse_cvat_xml tracks).2.2
            s e video scorer = none →
          run_pipeline ⟨tracks, ⟨true, mf⟩, (s, e), copyOk, h5, sWk, video, scorer⟩
            = ⟨.returned false, false, false⟩) := by
  refine ⟨?_, ?_, ?_, ?_, ?_⟩
  · exact nodup_validFrames _ s e (nodup_annKeys_parseDoc tracks)
  · intro f
    exact mem_validFrames _ s e f
  · intro cf h
    exact create_csv_dataRows _ _ s e video scorer cf h
  · rw [create_csv_eq_none_iff]
    exact validFrames_eq_nil_iff _ s e
  · intro mf copyOk h5 sWk hnone
    exact run_pipeline_csv_none ⟨tracks, ⟨true, mf⟩, (s, e), copyOk, h5, sWk, video, scorer⟩
      rfl hnone

/-- Document for the C2 counterexample: one track labelled `Bee` with a box at
frame 5 and a `<points>` element at frame 0 whose `points` attribute is
missing/empty (fewer than two components). -/
def c2Doc : List Track :=
  [⟨"Bee", [⟨5, 1, 1, 3, 3⟩], [⟨0, []⟩]⟩]

/-- **C2** counterexample.  Frame 0 has an annotation-index entry with zero
keypoint entries, and for the window `[0, 0]` the claim demands that it be
skipped — the row set being then empty, assembly should report failure.  The
code instead emits one all-missing row for frame 0 and succeeds. -/
theorem c2_counterexample :
    (parse_cvat_xml c2Doc).2.1.lookup 0 = some []
    ∧ ((create_deeplabcut_csv (parse_cvat_xml c2Doc).2.1 (parse_cvat_xml c2Doc).2.2
          0 0 "v" "m").map CsvFile.dataRows)
        = some [⟨"labeled-data", "v", "frame_0000.png", [none, none]⟩] := by
  decide

/-- **C1** (corrected).  If the decoder reaches the window's end
(`e < N` decodable frames), then every image filename embedded in a data row
of the assembled table is among the filenames written by extraction.  (Without
that proviso the claim fails: see the counterexample, where decode exhausts
before `range.end` and a row names an image that was never written.) -/
theorem c1_roundtrip (tracks : List Track) (s e N : ℕ) (video scorer : String)
    (hN : e < N) :
    ∀ img ∈ ((create_deeplabcut_csv (parse_cvat_xml tracks).2.1
        (parse_cvat_xml tracks).2.2 s e video scorer).elim []
          CsvFile.dataRows).map CsvRow.image,
      img ∈ (extract_frames N s e).1 := by
  intro img himg
  rcases hcf : create_deeplabcut_csv (parse_cvat_xml tracks).2.1
      (parse_cvat_xml tracks).2.2 s e video scorer with _ | cf
  · rw [hcf] at himg
    simp at himg
  · rw [hcf] at himg
    simp only [Option.elim] at himg
    rw [create_csv_dataRows _ _ s e video scorer cf hcf, List.map_map] at himg
    obtain ⟨f, hf, rfl⟩ := List.mem_map.mp himg
    obtain ⟨h1, h2, _⟩ := (mem_validFrames _ s e f).mp hf
    rw [extract_frames_fst]
    refine List.mem_map.mpr ⟨f, ?_, rfl⟩
    refine List.mem_filter.mpr ⟨List.mem_range.mpr (by omega), ?_⟩
    simp [h1, h2]

/-- Document for C1: one track labelled `Bee` with a point annotation at
frame 5. -/
def c1Doc : List Track :=
  [⟨"Bee", [], [⟨5, [12, 8]⟩]⟩]

/-- **C1** counterexample.  Window `[0, 9]` (the full-window range for a
probed count of 10), but the decode exhausts after 3 frames.  The assembled
table has one row, whose embedded filename `frame_0005.png` is not among the
extraction output — contradicting the claim's "including when the video
decode exhausts before range.end". -/
theorem c1_counterexample :
    ((create_deeplabcut_csv (parse_cvat_xml c1Doc).2.1 (parse_cvat_xml c1Doc).2.2
        0 9 "video" "manual").map (fun cf => cf.dataRows.map CsvRow.image))
      = some ["frame_0005.png"]
    ∧ "frame_0005.png" ∉ (extract_frames 3 0 9).1 := by
  decide

/-- Witness for C1: at the same document and window, with a decode that does
reach the window's end (10 ≥ 10 frames), the row's image is extracted. -/
theorem c1_roundtrip_witness :
    (9 : ℕ) < 10 ∧ "frame_0005.png" ∈ (extract_frames 10 0 9).1 :=
  ⟨by decide,
   c1_roundtrip c1Doc 0 9 10 "video" "manual" (by decide) "frame_0005.png" (by decide)⟩

/-! ## Frame-range validation, probing, and the run loop -/

/-- **C3** (corrected).  The interactive CLI prompt accepts a pair `(s, e)`
exactly when `0 ≤ s ≤ e ≤ total_frames - 1`, as the claim states; but the
GUI's `validate_inputs` accepts exactly when `0 ≤ s ∧ s ≤ e`, never comparing
against the probed total, so a pair with `e > total_frames - 1` passes
validation there and reaches extraction. -/
theorem c3_range_validation (totalFrames : ℕ) (s e : ℤ) :
    (interactive_range_ok totalFrames s e = true
        ↔ 0 ≤ s ∧ s ≤ e ∧ e ≤ (totalFrames : ℤ) - 1)
    ∧ (gui_range_ok s e = true ↔ 0 ≤ s ∧ s ≤ e) := by
  constructor
  · simp [interactive_range_ok, and_assoc]
  · simp [gui_range_ok]

/-- **C3** counterexample.  The spec's own scenario: range `[2, 4]` with
`total_frames = 3` must be rejected (`4 > 3 - 1`), but the GUI's validation
accepts it. -/
theorem c3_counterexample :
    gui_range_ok 2 4 = true
    ∧ ¬((0 : ℤ) ≤ 2 ∧ (2 : ℤ) ≤ 4 ∧ (4 : ℤ) ≤ (3 : ℤ) - 1) := by
  decide

/-- **C6** (amended).  Probing fails exactly when the video cannot be opened
— a video that opens but reports zero frames is a probe success, not a
failure — and the pipeline halts with overall failure exactly on a probe
failure. -/
theorem c6_probe_open_only (v : VideoFile) (env : Env) :
    (get_video_info v = none ↔ v.canOpen = false)
    ∧ (env.video.canOpen = false →
        run_pipeline env = ⟨.returned false, false, false⟩) := by
  constructor
  · rw [get_video_info]
    rcases v with ⟨o, m⟩
    cases o <;> simp
  · intro h
    simp [run_pipeline, get_video_info, h]

/-- **C6** counterexample.  A video that opens and reports zero usable frames:
`get_video_info` succeeds (`some 0`), while the claim demands a probe
failure. -/
theorem c6_counterexample :
    ¬(∀ v : VideoFile, get_video_info v = none
        ↔ (v.canOpen = false ∨ v.metaFrames = 0)) := by
  intro h
  have h0 := (h ⟨true, 0⟩).mpr (Or.inr rfl)
  simp [get_video_info] at h0

/-- Environment for C7: a run whose every stage up to the summary succeeds and
whose summary-file write fails. -/
def c7Env : Env :=
  ⟨[⟨"Bee", [⟨0, 1, 1, 3, 3⟩], []⟩], ⟨true, 10⟩, (0, 0), true, .works, false,
   "video", "manual"⟩

/-- **C7** (code bug).  `create_dataset_summary` has no exception handler, so
a failing summary write raises out of `run_pipeline`: the run aborts instead
of logging the failure and still reporting success.  The identical run with a
succeeding summary write returns success, isolating the summary write as the
cause. -/
theorem c7_summary_failure_aborts :
    create_dataset_summary false = none
    ∧ run_pipeline c7Env = ⟨.raised, true, true⟩
    ∧ run_pipeline { c7Env with summaryWriteOk := true }
        = ⟨.returned true, true, true⟩ := by
  decide

/-- **C8** (confirmed).  Every degradation of the external converter —
absent dependency, interactive prompt, raised exception — makes
`generate_h5_file` return `True`, and the whole run trace (result and
artifacts) is invariant under the converter's status: the converter step never
causes the pipeline to report failure. -/
theorem c8_converter_never_fails (env : Env) (st : ConverterStatus) :
    generate_h5_file st = true
    ∧ run_pipeline { env with h5 := st } = run_pipeline env := by
  constructor
  · cases st <;> rfl
  · rfl

/-! ## Idempotence of the written artifacts -/

theorem string_append_left_cancel {a b c : String} (h : a ++ b = a ++ c) :
    b = c := by
  have hd : a.data ++ b.data = a.data ++ c.data := by
    rw [← String.data_append, ← String.data_append, h]
  rcases b with ⟨lb⟩
  rcases c with ⟨lc⟩
  exact congrArg String.mk (List.append_cancel_left hd)

theorem string_append_right_cancel {a b c : String} (h : a ++ c = b ++ c) :
    a = b := by
  have hd : a.data ++ c.data = b.data ++ c.data := by
    rw [← String.data_append, ← String.data_append, h]
  rcases a with ⟨la⟩
  rcases b with ⟨lb⟩
  exact congrArg String.mk (List.append_cancel_right hd)

theorem config_eq_iff_date_eq (projectPath videoFilename : String)
    (bodyparts : List String) (projectName scorer d1 d2 : String) :
    create_deeplabcut_config projectPath videoFilename bodyparts projectName scorer d1
      = create_deeplabcut_config projectPath videoFilename bodyparts projectName scorer d2
    ↔ d1 = d2 := by
  constructor
  · intro h
    simp only [create_deeplabcut_config, List.cons_append, List.nil_append,
      List.cons.injEq, and_true, true_and] at h
    have h1 : "date: " ++ d1 ++ "\n" = "date: " ++ d2 ++ "\n" := h
    exact string_append_left_cancel (string_append_right_cancel h1)
  · rintro rfl
    rfl

/-- **C9** (corrected).  Two runs with identical annotation index, vocabulary,
window, video name, scorer, project path and project name produce identical
table and descriptor content exactly when their formatted run dates
(`%b%d` of `datetime.now()`) coincide: the `date:` line of the descriptor is
the only run-time-dependent content.  The table never depends on the date. -/
theorem c9_idempotence (a : AnnIndex) (bodyparts : List String) (s e : ℕ)
    (video scorer projectPath videoFilename projectName d1 d2 : String) :
    pipelineOutputs a bodyparts s e video scorer projectPath videoFilename projectName d1
      = pipelineOutputs a bodyparts s e video scorer projectPath videoFilename projectName d2
    ↔ d1 = d2 := by
  rw [pipelineOutputs, pipelineOutputs, Prod.mk.injEq]
  constructor
  · intro h
    exact (config_eq_iff_date_eq projectPath videoFilename bodyparts projectName
      scorer d1 d2).mp h.2
  · rintro rfl
    exact ⟨rfl, rfl⟩

/-- **C9** counterexample.  The same inputs on two consecutive days: the
descriptor contents differ (in the `date:` line), refuting byte-identity of
the two runs' outputs. -/
theorem c9_counterexample :
    pipelineOutputs [(0, [("Bee", (1 : ℚ), (2 : ℚ))])] ["Bee"] 0 0 "v" "m"
        "/p" "v.mp4" "Proj" "Sep16"
      ≠ pipelineOutputs [(0, [("Bee", (1 : ℚ), (2 : ℚ))])] ["Bee"] 0 0 "v" "m"
        "/p" "v.mp4" "Proj" "Sep17" := by
  decide

/-! ## The keypoint vocabulary -/

theorem mem_insertSet (x y : String) (l : List String) :
    y ∈ insertSet x l ↔ y = x ∨ y ∈ l := by
  rw [insertSet]
  by_cases h : x ∈ l
  · rw [if_pos h]
    constructor
    · exact Or.inr
    · rintro (rfl | hy)
      · exact h
      · exact hy
  · rw [if_neg h]
    exact List.mem_cons

theorem nodup_insertSet (x : String) (l : List String) (h : l.Nodup) :
    (insertSet x l).Nodup := by
  rw [insertSet]
  by_cases hx : x ∈ l
  · rwa [if_pos hx]
  · rw [if_neg hx]
    exact List.nodup_cons.mpr ⟨hx, h⟩

theorem mem_constant_map {α : Type} (l : List α) (c x : String) :
    x ∈ l.map (fun _ => c) ↔ l ≠ [] ∧ x = c := by
  cases l with
  | nil => simp
  | cons a l =>
    simp only [List.map_cons, List.mem_cons, List.mem_map]
    constructor
    · rintro (rfl | ⟨b, _, rfl⟩)
      · exact ⟨List.cons_ne_nil a l, rfl⟩
      · exact ⟨List.cons_ne_nil a l, rfl⟩
    · rintro ⟨_, rfl⟩
      exact Or.inl rfl

/-- The names one track contributes according to the specification: a
box-derived `<label>_center` per box and a point-derived `label` per points
element. -/
def trackNames (t : Track) : List String :=
  (t.boxes.map fun _ => t.label ++ "_center") ++ (t.points.map fun _ => t.label)

/-- All name occurrences across the document, in order. -/
def specNameOccurrences : List Track → List String
  | [] => []
  | t :: ts => trackNames t ++ specNameOccurrences ts

/-- The specification's keypoint vocabulary: the lexicographically sorted,
de-duplicated union of all box-derived and point-derived keypoint names across
all tracks. -/
def specVocabulary (tracks : List Track) : List String :=
  List.insertionSort (· ≤ ·) (specNameOccurrences tracks).dedup

theorem mem_bodyparts_foldl_boxes (L : String) (x : String) :
    ∀ (bs : List Box) (st : ParseState),
      x ∈ (bs.foldl (processBox L) st).bodyparts_set
        ↔ (bs ≠ [] ∧ x = L ++ "_center") ∨ x ∈ st.bodyparts_set
  | [], st => by simp
  | b :: bs, st => by
    rw [List.foldl_cons, mem_bodyparts_foldl_boxes L x bs _]
    simp only [processBox, mem_insertSet, ne_eq, List.cons_ne_nil, not_false_iff,
      true_and]
    tauto

theorem mem_bodyparts_foldl_points (L : String) (x : String) :
    ∀ (ps : List PointElt) (st : ParseState),
      (∀ p ∈ ps, 2 ≤ p.coords.length) →
      (x ∈ (ps.foldl (processPoint L) st).bodyparts_set
        ↔ (ps ≠ [] ∧ x = L) ∨ x ∈ st.bodyparts_set)
  | [], st, _ => by simp
  | p :: ps, st, hv => by
    have hp := hv p (List.mem_cons_self p ps)
    have hps : ∀ q ∈ ps, 2 ≤ q.coords.length :=
      fun q hq => hv q (List.mem_cons_of_mem p hq)
    rw [List.foldl_cons, mem_bodyparts_foldl_points L x ps _ hps]
    rcases p with ⟨f, coords⟩
    rcases coords with _ | ⟨c1, _ | ⟨c2, tl⟩⟩
    · simp at hp
    · simp at hp
    · simp only [processPoint, mem_insertSet, ne_eq, List.cons_ne_nil,
        not_false_iff, true_and]
      tauto

theorem mem_bodyparts_processTrack (t : Track) (st : ParseState) (x : String)
    (hv : ∀ p ∈ t.points, 2 ≤ p.coords.length) :
    x ∈ (processTrack st t).bodyparts_set
      ↔ x ∈ trackNames t ∨ x ∈ st.bodyparts_set := by
  rw [processTrack, mem_bodyparts_foldl_points t.label x t.points _ hv,
    mem_bodyparts_foldl_boxes]
  simp only [trackNames, List.mem_append, mem_constant_map]
  tauto

theorem mem_bodyparts_parseAux (x : String) :
    ∀ (tracks : List Track) (st : ParseState),
      (∀ t ∈ tracks, ∀ p ∈ t.points, 2 ≤ p.coords.length) →
      (x ∈ (tracks.foldl processTrack st).bodyparts_set
        ↔ x ∈ specNameOccurrences tracks ∨ x ∈ st.bodyparts_set)
  | [], st, _ => by simp [specNameOccurrences]
  | t :: ts, st, hv => by
    have ht := hv t (List.mem_cons_self t ts)
    have hts : ∀ u ∈ ts, ∀ p ∈ u.points, 2 ≤ p.coords.length :=
      fun u hu => hv u (List.mem_cons_of_mem t hu)
    rw [List.foldl_cons, mem_bodyparts_parseAux x ts _ hts,
      mem_bodyparts_processTrack t st x ht]
    simp only [specNameOccurrences, List.mem_append]
    tauto

theorem nodup_bodyparts_parseDoc (tracks : List Track) :
    (parseDoc tracks).bodyparts_set.Nodup := by
  have hbox : ∀ (L : String) (st : ParseState), st.bodyparts_set.Nodup →
      ∀ b, (processBox L st b).bodyparts_set.Nodup := by
    intro L st h b
    exact nodup_insertSet _ _ h
  have hpt : ∀ (L : String) (st : ParseState), st.bodyparts_set.Nodup →
      ∀ p, (processPoint L st p).bodyparts_set.Nodup := by
    intro L st h p
    rcases p with ⟨f, coords⟩
    rcases coords with _ | ⟨c1, _ | ⟨c2, tl⟩⟩
    · exact h
    · exact h
    · exact nodup_insertSet _ _ h
  have htrack : ∀ (st : ParseState) (t : Track), st.bodyparts_set.Nodup →
      (processTrack st t).bodyparts_set.Nodup := by
    intro st t h
    rw [processTrack]
    refine foldl_preserves (fun st : ParseState => st.bodyparts_set.Nodup) _ ?_ _ _ ?_
    · intro st p hp
      exact hpt t.label st hp p
    · refine foldl_preserves (fun st : ParseState => st.bodyparts_set.Nodup) _ ?_ _ _ h
      intro st b hb
      exact hbox t.label st hb b
  rw [parseDoc]
  refine foldl_preserves (fun st : ParseState => st.bodyparts_set.Nodup) _ ?_ _ _ ?_
  · intro st t h
    exact htrack st t h
  · exact List.nodup_nil

/-- **C5** (confirmed).  For every valid annotation export (each `points`
attribute holding at least two components, as the collaborator format
guarantees), the keypoint vocabulary produced by parsing equals the
lexicographically sorted, de-duplicated union of all box-derived
(`<label>_center`) and point-derived (`label`) names across all tracks.  In
this embedding every later stage receives the vocabulary by value and none
rebuilds or rebinds it, so it is fixed once parsing completes. -/
theorem c5_vocabulary (tracks : List Track)
    (hvalid : ∀ t ∈ tracks, ∀ p ∈ t.points, 2 ≤ p.coords.length) :
    (parse_cvat_xml tracks).2.2 = specVocabulary tracks := by
  show List.insertionSort (· ≤ ·) (parseDoc tracks).bodyparts_set
      = List.insertionSort (· ≤ ·) (specNameOccurrences tracks).dedup
  have hmem : ∀ y, y ∈ (parseDoc tracks).bodyparts_set
      ↔ y ∈ (specNameOccurrences tracks).dedup := by
    intro y
    rw [List.mem_dedup, parseDoc, mem_bodyparts_parseAux y tracks _ hvalid]
    simp
  have hperm : (parseDoc tracks).bodyparts_set.Perm (specNameOccurrences tracks).dedup :=
    (List.perm_ext_iff_of_nodup (nodup_bodyparts_parseDoc tracks)
      (List.nodup_dedup _)).mpr hmem
  exact List.eq_of_perm_of_sorted
    (((List.perm_insertionSort _ _).trans hperm).trans
      (List.perm_insertionSort _ _).symm)
    (List.sorted_insertionSort _ _) (List.sorted_insertionSort _ _)

/-- Document for the C5 witness: a box-style track and a point-style track. -/
def c5Doc : List Track :=
  [⟨"Queen", [⟨0, 0, 0, 2, 2⟩], []⟩, ⟨"Worker", [], [⟨0, [1, 2]⟩]⟩]

/-- Witness for C5 at a concrete valid export. -/
theorem c5_vocabulary_witness :
    (∀ t ∈ c5Doc, ∀ p ∈ t.points, 2 ≤ p.coords.length)
    ∧ (parse_cvat_xml c5Doc).2.2 = specVocabulary c5Doc :=
  ⟨by decide, c5_vocabulary c5Doc (by decide)⟩
/-! ## Same keypoint name, same frame: the later shape wins

The parser's write sequence, as an explicit event list.  `docEvents` lists,
for each track in document order, the writes of its boxes in document order
followed by the writes of its points elements in document order — exactly the
processing order of `parse_cvat_xml`.  For any two shapes that can collide
(produce the same keypoint name for the same frame) this order coincides with
document order: shapes of different tracks are ordered by their tracks, two
boxes or two points of one track keep their relative order under `findall`,
and a box and a points element of the same track never produce the same name
(`<label>_center` has seven more characters than `<label>`; proved below). -/

/-- A keypoint write event: frame number, keypoint name, stored coordinate
(pipeline lines 116 and 133). -/
abbrev KpEvent := ℕ × String × (ℚ × ℚ)

/-- The write events of one track's boxes, in order (pipeline lines 98-117). -/
def boxEvents (L : String) (bs : List Box) : List KpEvent :=
  bs.map fun b => (b.frame, L ++ "_center", ((b.xtl + b.xbr) / 2, (b.ytl + b.ybr) / 2))

/-- The write events of one track's points elements, in order (pipeline lines
120-134): an element whose attribute has fewer than two components writes
nothing. -/
def pointEvents (L : String) (ps : List PointElt) : List KpEvent :=
  ps.filterMap fun p =>
    match p.coords with
    | x :: y :: _ => some (p.frame, L, (x, y))
    | _ => none

/-- All write events of one track in processing order: its boxes, then its
points elements. -/
def trackEvents (t : Track) : List KpEvent :=
  boxEvents t.label t.boxes ++ pointEvents t.label t.points

/-- All write events of the document in processing order: tracks in document
order. -/
def docEvents : List Track → List KpEvent
  | [] => []
  | t :: ts => trackEvents t ++ docEvents ts

/-- The coordinate of the last event writing keypoint `k` of frame `f`. -/
def keyedLast (evs : List KpEvent) (f : ℕ) (k : String) : Option (ℚ × ℚ) :=
  ((evs.filter fun ev => ev.1 == f && ev.2.1 == k).map fun ev => ev.2.2).getLast?

theorem keyedLast_append (l1 l2 : List KpEvent) (f : ℕ) (k : String) :
    keyedLast (l1 ++ l2) f k = (keyedLast l2 f k).or (keyedLast l1 f k) := by
  rw [keyedLast, List.filter_append, List.map_append, List.getLast?_append]
  rfl

theorem keyedLast_singleton (g : ℕ) (n : String) (v : ℚ × ℚ) (f : ℕ) (k : String) :
    keyedLast [(g, n, v)] f k = if g = f ∧ n = k then some v else none := by
  rw [keyedLast]
  by_cases h1 : g = f
  · by_cases h2 : n = k
    · simp [List.filter, h1, h2]
    · simp [List.filter, h1, h2, beq_false_of_ne h2]
  · simp [List.filter, h1, beq_false_of_ne h1]

theorem lookupKp_eq (a : AnnIndex) (f : ℕ) (k : String) :
    lookupKp a f k = ((List.lookup f a).getD []).lookup k := by
  rcases hx : List.lookup f a with _ | fa
  · simp [lookupKp, hx]
  · simp [lookupKp, hx]

theorem lookup_map_ite (l : AnnIndex) (f f' : ℕ) (g : FrameAnn → FrameAnn) :
    List.lookup f' (l.map fun p => if p.1 = f then (p.1, g p.2) else p)
      = if f' = f then (List.lookup f' l).map g else List.lookup f' l := by
  induction l with
  | nil => by_cases h : f' = f <;> simp [h]
  | cons p l ih =>
    rcases p with ⟨a, fa⟩
    by_cases haf : a = f
    · subst haf
      by_cases hf' : f' = a
      · subst hf'
        simp [List.lookup_cons]
      · simp [List.lookup_cons, beq_false_of_ne hf', hf', ih]
    · by_cases hf' : f' = a
      · subst hf'
        have hff : ¬f' = f := haf
        simp [List.lookup_cons, haf, hff]
      · simp [List.lookup_cons, beq_false_of_ne hf', haf, ih]

theorem lookup_ensureFrame_self (a : AnnIndex) (f : ℕ) :
    List.lookup f (ensureFrame a f) = some ((List.lookup f a).getD []) := by
  rw [ensureFrame]
  rcases h : List.lookup f a with _ | fa
  · rw [if_neg (by simp [h])]
    simp [List.lookup_cons]
  · rw [if_pos (by simp [h])]
    simp [h]

theorem lookup_ensureFrame_ne (a : AnnIndex) (f f' : ℕ) (h : f' ≠ f) :
    List.lookup f' (ensureFrame a f) = List.lookup f' a := by
  rw [ensureFrame]
  by_cases hs : (List.lookup f a).isSome
  · rw [if_pos hs]
  · rw [if_neg hs]
    simp [List.lookup_cons, beq_false_of_ne h]

theorem lookupKp_ensureFrame (a : AnnIndex) (f f' : ℕ) (k : String) :
    lookupKp (ensureFrame a f) f' k = lookupKp a f' k := by
  rw [lookupKp_eq, lookupKp_eq]
  by_cases h : f' = f
  · subst h
    rw [lookup_ensureFrame_self]
    rcases List.lookup f' a with _ | fa <;> simp
  · rw [lookup_ensureFrame_ne a f f' h]

theorem lookup_filter_ne (fa : FrameAnn) (k k' : String) (h : k' ≠ k) :
    List.lookup k' (fa.filter fun q => q.1 != k) = List.lookup k' fa := by
  induction fa with
  | nil => rfl
  | cons q fa ih =>
    rcases q with ⟨n, v⟩
    by_cases hn : n = k
    · subst hn
      simp [List.filter_cons, List.lookup_cons, beq_false_of_ne h, ih]
    · by_cases hk'n : k' = n
      · subst hk'n
        simp [List.filter_cons, List.lookup_cons, hn, beq_false_of_ne hn]
      · simp [List.filter_cons, List.lookup_cons, hn, beq_false_of_ne hn,
          beq_false_of_ne hk'n, ih]

theorem lookupKp_setKp (a : AnnIndex) (f : ℕ) (k : String) (v : ℚ × ℚ)
    (f' : ℕ) (k' : String) :
    lookupKp (setKp a f k v) f' k'
      = if f' = f ∧ k' = k then some v else lookupKp a f' k' := by
  rw [lookupKp_eq, setKp,
    lookup_map_ite (ensureFrame a f) f f' (fun fa => (k, v) :: fa.filter (fun q => q.1 != k))]
  by_cases hf : f' = f
  · subst hf
    rw [if_pos rfl, lookup_ensureFrame_self]
    by_cases hk : k' = k
    · subst hk
      simp [List.lookup_cons]
    · rw [if_neg (by tauto), lookupKp_eq]
      simp [List.lookup_cons, beq_false_of_ne hk, lookup_filter_ne _ _ _ hk]
  · rw [if_neg hf, if_neg (fun hc => hf hc.1), lookup_ensureFrame_ne a f f' hf,
      ← lookupKp_eq]

theorem lookupKp_foldl_boxes (L : String) (f : ℕ) (k : String) :
    ∀ (bs : List Box) (st : ParseState),
      lookupKp (bs.foldl (processBox L) st).ann f k
        = (keyedLast (boxEvents L bs) f k).or (lookupKp st.ann f k)
  | [], st => by simp [boxEvents, keyedLast]
  | b :: bs, st => by
    rw [List.foldl_cons, lookupKp_foldl_boxes L f k bs _]
    have h1 : lookupKp (processBox L st b).ann f k
        = (keyedLast [(b.frame, L ++ "_center",
            ((b.xtl + b.xbr) / 2, (b.ytl + b.ybr) / 2))] f k).or
          (lookupKp st.ann f k) := by
      rw [keyedLast_singleton]
      show lookupKp (setKp st.ann b.frame (L ++ "_center")
        ((b.xtl + b.xbr) / 2, (b.ytl + b.ybr) / 2)) f k = _
      rw [lookupKp_setKp]
      by_cases h : b.frame = f ∧ L ++ "_center" = k
      · rw [if_pos h, if_pos ⟨h.1.symm, h.2.symm⟩]
        rfl
      · rw [if_neg h, if_neg (fun hc => h ⟨hc.1.symm, hc.2.symm⟩)]
        rfl
    have h2 : boxEvents L (b :: bs)
        = [(b.frame, L ++ "_center", ((b.xtl + b.xbr) / 2, (b.ytl + b.ybr) / 2))]
          ++ boxEvents L bs := by
      simp [boxEvents]
    rw [h1, h2, keyedLast_append, Option.or_assoc]

theorem lookupKp_foldl_points (L : String) (f : ℕ) (k : String) :
    ∀ (ps : List PointElt) (st : ParseState),
      lookupKp (ps.foldl (processPoint L) st).ann f k
        = (keyedLast (pointEvents L ps) f k).or (lookupKp st.ann f k)
  | [], st => by simp [pointEvents, keyedLast]
  | p :: ps, st => by
    rw [List.foldl_cons, lookupKp_foldl_points L f k ps _]
    rcases p with ⟨pf, coords⟩
    rcases coords with _ | ⟨c1, _ | ⟨c2, tl⟩⟩
    · have h1 : processPoint L st ⟨pf, []⟩ = { st with ann := ensureFrame st.ann pf } := rfl
      have h2 : pointEvents L (⟨pf, ([] : List ℚ)⟩ :: ps) = pointEvents L ps := rfl
      rw [h1, h2]
      show (keyedLast (pointEvents L ps) f k).or (lookupKp (ensureFrame st.ann pf) f k) = _
      rw [lookupKp_ensureFrame]
    · have h1 : processPoint L st ⟨pf, [c1]⟩ = { st with ann := ensureFrame st.ann pf } := rfl
      have h2 : pointEvents L (⟨pf, [c1]⟩ :: ps) = pointEvents L ps := rfl
      rw [h1, h2]
      show (keyedLast (pointEvents L ps) f k).or (lookupKp (ensureFrame st.ann pf) f k) = _
      rw [lookupKp_ensureFrame]
    · have h1 : lookupKp (processPoint L st ⟨pf, c1 :: c2 :: tl⟩).ann f k
          = (keyedLast [(pf, L, (c1, c2))] f k).or (lookupKp st.ann f k) := by
        rw [keyedLast_singleton]
        show lookupKp (setKp st.ann pf L (c1, c2)) f k = _
        rw [lookupKp_setKp]
        by_cases h : pf = f ∧ L = k
        · rw [if_pos h, if_pos ⟨h.1.symm, h.2.symm⟩]
          rfl
        · rw [if_neg h, if_neg (fun hc => h ⟨hc.1.symm, hc.2.symm⟩)]
          rfl
      have h2 : pointEvents L (⟨pf, c1 :: c2 :: tl⟩ :: ps)
          = [(pf, L, (c1, c2))] ++ pointEvents L ps := rfl
      rw [h1, h2, keyedLast_append, Option.or_assoc]

theorem lookupKp_processTrack (t : Track) (st : ParseState) (f : ℕ) (k : String) :
    lookupKp (processTrack st t).ann f k
      = (keyedLast (trackEvents t) f k).or (lookupKp st.ann f k) := by
  rw [processTrack, lookupKp_foldl_points, lookupKp_foldl_boxes, trackEvents,
    keyedLast_append, Option.or_assoc]

theorem lookupKp_parseAux (f : ℕ) (k : String) :
    ∀ (tracks : List Track) (st : ParseState),
      lookupKp (tracks.foldl processTrack st).ann f k
        = (keyedLast (docEvents tracks) f k).or (lookupKp st.ann f k)
  | [], st => by simp [docEvents, keyedLast]
  | t :: ts, st => by
    rw [List.foldl_cons, lookupKp_parseAux f k ts _, lookupKp_processTrack,
      docEvents, keyedLast_append, Option.or_assoc]

/-- Every frame entry of the index binds each keypoint name at most once:
its keys are duplicate-free. -/
def annWF (a : AnnIndex) : Prop :=
  ∀ (f : ℕ) (fa : FrameAnn), List.lookup f a = some fa → (fa.map Prod.fst).Nodup

theorem frameAnn_insert_nodup (fa : FrameAnn) (k : String) (v : ℚ × ℚ)
    (h : (fa.map Prod.fst).Nodup) :
    (((k, v) :: fa.filter fun q => q.1 != k).map Prod.fst).Nodup := by
  rw [List.map_cons, List.nodup_cons]
  constructor
  · intro hmem
    obtain ⟨q, hq, hqk⟩ := List.mem_map.mp hmem
    have hne := List.of_mem_filter hq
    rw [hqk] at hne
    simp at hne
  · exact List.Nodup.sublist ((List.filter_sublist fa).map Prod.fst) h

theorem annWF_ensureFrame (a : AnnIndex) (f : ℕ) (h : annWF a) :
    annWF (ensureFrame a f) := by
  intro f' fa hl
  by_cases hf : f' = f
  · subst hf
    rw [lookup_ensureFrame_self] at hl
    rcases hx : List.lookup f' a with _ | fa0
    · rw [hx] at hl
      obtain rfl := Option.some.inj hl
      simp
    · rw [hx] at hl
      obtain rfl := Option.some.inj hl
      exact h f' fa0 hx
  · rw [lookup_ensureFrame_ne a f f' hf] at hl
    exact h f' fa hl

theorem annWF_setKp (a : AnnIndex) (f : ℕ) (k : String) (v : ℚ × ℚ)
    (h : annWF a) : annWF (setKp a f k v) := by
  intro f' fa hl
  rw [setKp,
    lookup_map_ite (ensureFrame a f) f f'
      (fun fa => (k, v) :: fa.filter (fun q => q.1 != k))] at hl
  by_cases hf : f' = f
  · rw [if_pos hf] at hl
    subst hf
    rw [lookup_ensureFrame_self] at hl
    simp only [Option.map_some'] at hl
    obtain rfl := Option.some.inj hl
    apply frameAnn_insert_nodup
    rcases hx : List.lookup f' a with _ | fa0
    · simp
    · exact h f' fa0 hx
  · rw [if_neg hf] at hl
    exact annWF_ensureFrame a f h f' fa hl

theorem annWF_parseDoc (tracks : List Track) : annWF (parseDoc tracks).ann := by
  have hbox : ∀ (L : String) (st : ParseState), annWF st.ann →
      ∀ b, annWF (processBox L st b).ann := by
    intro L st h b
    exact annWF_setKp _ _ _ _ h
  have hpt : ∀ (L : String) (st : ParseState), annWF st.ann →
      ∀ p, annWF (processPoint L st p).ann := by
    intro L st h p
    rcases p with ⟨pf, coords⟩
    rcases coords with _ | ⟨c1, _ | ⟨c2, tl⟩⟩
    · exact annWF_ensureFrame _ _ h
    · exact annWF_ensureFrame _ _ h
    · exact annWF_setKp _ _ _ _ h
  have htrack : ∀ (st : ParseState) (t : Track), annWF st.ann →
      annWF (processTrack st t).ann := by
    intro st t h
    rw [processTrack]
    refine foldl_preserves (fun st : ParseState => annWF st.ann) _ ?_ _ _ ?_
    · intro st p hp
      exact hpt t.label st hp p
    · refine foldl_preserves (fun st : ParseState => annWF st.ann) _ ?_ _ _ h
      intro st b hb
      exact hbox t.label st hb b
  rw [parseDoc]
  refine foldl_preserves (fun st : ParseState => annWF st.ann) _ ?_ _ _ ?_
  · intro st t h
    exact htrack st t h
  · intro f fa hl
    simp [List.lookup] at hl

/-- Within one track, a box-derived event and a point-derived event can never
share a keypoint name: `<label>_center` is seven characters longer than
`<label>`.  Hence the processing order of `docEvents` (boxes before points
inside a track) agrees with document order on every pair of events that can
collide. -/
theorem box_point_names_disjoint (t : Track) :
    ∀ ev1 ∈ boxEvents t.label t.boxes, ∀ ev2 ∈ pointEvents t.label t.points,
      ev1.2.1 ≠ ev2.2.1 := by
  intro ev1 h1 ev2 h2
  obtain ⟨b, _, rfl⟩ := List.mem_map.mp h1
  obtain ⟨p, _, hp⟩ := List.mem_filterMap.mp h2
  rcases p with ⟨pf, coords⟩
  rcases coords with _ | ⟨c1, _ | ⟨c2, tl⟩⟩
  · simp at hp
  · simp at hp
  · obtain rfl := Option.some.inj hp
    show t.label ++ "_center" ≠ t.label
    intro hcontra
    have hlen := congrArg String.length hcontra
    rw [String.length_append] at hlen
    have h7 : ("_center" : String).length = 7 := by decide
    omega

/-- **C10** (confirmed).  For every document, frame and keypoint name: the
parsed frame annotation binds each keypoint name to at most one coordinate
pair (duplicate-free keys, third conjunct), and the pair it binds is exactly
the one written by the *last* shape in processing order that produces this
name for this frame (first conjunct, with `docEvents` the full write sequence:
tracks in document order, each track's boxes then its points elements, all in
document order).  So whenever two shapes produce the same keypoint name for
the same frame — two tracks with the same label, a box-track `L` alongside a
point-track `L_center`, two boxes of one track, in a document of any size —
the later shape silently overwrites the earlier coordinate, and any earlier
distinct coordinate is no longer retrievable under that name (second
conjunct), while parsing still reports success with no error or warning (fifth
conjunct).  The fourth conjunct shows a box and a points element of the *same*
track never produce the same name, so on every pair of shapes that can
collide, the processing order of `docEvents` coincides with document order. -/
theorem c10_later_shape_overwrites (tracks : List Track) (f : ℕ) (k : String) :
    lookupKp (parse_cvat_xml tracks).2.1 f k = keyedLast (docEvents tracks) f k
    ∧ (∀ v1 v2 : ℚ × ℚ, keyedLast (docEvents tracks) f k = some v2 → v1 ≠ v2 →
        lookupKp (parse_cvat_xml tracks).2.1 f k ≠ some v1)
    ∧ (∀ fa : FrameAnn, List.lookup f (parse_cvat_xml tracks).2.1 = some fa →
        (fa.map Prod.fst).Nodup)
    ∧ (∀ t ∈ tracks, ∀ ev1 ∈ boxEvents t.label t.boxes,
        ∀ ev2 ∈ pointEvents t.label t.points, ev1.2.1 ≠ ev2.2.1)
    ∧ (parse_cvat_xml tracks).1 = true := by
  have hmain : lookupKp (parse_cvat_xml tracks).2.1 f k
      = keyedLast (docEvents tracks) f k := by
    show lookupKp (parseDoc tracks).ann f k = _
    rw [parseDoc, lookupKp_parseAux f k tracks ⟨[], []⟩]
    show (keyedLast (docEvents tracks) f k).or none = _
    rw [Option.or_none]
  refine ⟨hmain, ?_, ?_, ?_, rfl⟩
  · intro v1 v2 hlast hne
    rw [hmain, hlast]
    intro hc
    exact hne (Option.some.inj hc).symm
  · intro fa hl
    exact annWF_parseDoc tracks f fa hl
  · intro t _
    exact box_point_names_disjoint t

/-- Witness for C10 at the claim's two example collisions.  Two point-tracks
both labelled `Bee` at frame 5: the later track's `(3, 4)` survives and the
earlier `(12, 8)` is gone.  A box-track `Bee` (producing keypoint
`Bee_center` = midpoint `(2, 2)`) alongside a later point-track labelled
`Bee_center` at the same frame: the point-track's `(9, 9)` overwrites the
box-derived centre. -/
theorem c10_later_shape_overwrites_witness :
    lookupKp (parse_cvat_xml
        [⟨"Bee", [], [⟨5, [12, 8]⟩]⟩, ⟨"Bee", [], [⟨5, [3, 4]⟩]⟩]).2.1 5 "Bee"
      = some (3, 4)
    ∧ ((12 : ℚ), (8 : ℚ)) ∉ (((parse_cvat_xml
        [⟨"Bee", [], [⟨5, [12, 8]⟩]⟩, ⟨"Bee", [], [⟨5, [3, 4]⟩]⟩]).2.1.lookup
          5).getD []).map Prod.snd
    ∧ lookupKp (parse_cvat_xml
        [⟨"Bee", [⟨2, 1, 1, 3, 3⟩], []⟩, ⟨"Bee_center", [], [⟨2, [9, 9]⟩]⟩]).2.1
          2 "Bee_center"
      = some (9, 9)
    ∧ keyedLast (docEvents
        [⟨"Bee", [⟨2, 1, 1, 3, 3⟩], []⟩, ⟨"Bee_center", [], [⟨2, [9, 9]⟩]⟩])
          2 "Bee_center"
      = some (9, 9)
    ∧ (parse_cvat_xml
        [⟨"Bee", [⟨2, 1, 1, 3, 3⟩], []⟩, ⟨"Bee_center", [], [⟨2, [9, 9]⟩]⟩]).1
      = true := by
  decide
